import Mathlib

/-!
# contrib/gmime-test.c

A shallow embedding of `contrib/gmime-test.c`, the small program that parses one
message file with GMime and prints a few header fields and the first body part.

The program is glue over GMime, GLib and libc.  Everything those libraries
compute is either data carried by the model of the library objects
(`GMimeMessage`, `GMimeObject`, `GMimeDataWrapper`, `GMimeStream`) or a field of
`Lib`, over which the theorems quantify.  The program's own control flow is
translated function by function, with the effects it has on the outside made
explicit in `World`.

Conventions: a C string is a `String`, a `NULL`-able pointer is an `Option`, a
raw byte buffer is a `List Char` (one `Char` per C `char`).
-/

namespace GmimeTest

/-! ## Library objects -/

/-- The `GMimeAddressType` enumeration of gmime. -/
inductive GMimeAddressType where
  | SENDER | FROM | REPLY_TO | TO | CC | BCC
  deriving DecidableEq, Repr

/-- A mailbox of an address list. -/
structure InternetAddress where
  name : Option String
  addr : String
  deriving DecidableEq, Repr

abbrev InternetAddressList := List InternetAddress

/-- The `GMimeContentEncoding` enumeration of gmime. -/
inductive GMimeContentEncoding where
  | DEFAULT | SEVENBIT | EIGHTBIT | BINARY | BASE64 | QUOTEDPRINTABLE | UUENCODE
  deriving DecidableEq, Repr

/-- One outcome of `g_mime_stream_read (stream, buf, count)`: the value `-1`
(`error`), or the bytes the call placed in `buf`. -/
inductive ReadResult where
  | error
  | data (bytes : List Char)
  deriving DecidableEq, Repr

/-- A `GMimeStream` as its reader sees it: the outcomes its coming reads will
have, in order.  Once these are used up the stream is at its end and every
further read returns 0 bytes. -/
structure GMimeStream where
  reads : List ReadResult
  deriving DecidableEq, Repr

/-- The struct `GMimeDataWrapper` of gmime: the transfer encoding of the content
and the stream `g_mime_data_wrapper_get_stream` returns, which holds the content
as it stands in the message, still in that encoding. -/
structure GMimeDataWrapper where
  encoding : GMimeContentEncoding
  stream : Option GMimeStream
  deriving DecidableEq, Repr

/-- A MIME object by its GObject type: `GMIME_IS_PART` holds of `part`,
`GMIME_IS_MULTIPART` of `multipart`, neither of `other` (a message part, say). -/
inductive GMimeObject where
  | part (content : Option GMimeDataWrapper)
  | multipart (children : List GMimeObject)
  | other

/-- A `GDateTime`. -/
structure GDateTime where
  seconds : Int
  deriving DecidableEq, Repr

/-- The `struct tm` of libc. -/
structure Tm where
  tm_sec : Int
  tm_min : Int
  tm_hour : Int
  tm_mday : Int
  tm_mon : Int
  tm_year : Int
  tm_wday : Int
  tm_yday : Int
  tm_isdst : Int
  tm_gmtoff : Int
  deriving DecidableEq, Repr

/-- A parsed message, through the accessors the program calls on it:
`g_mime_message_get_addresses`, `g_mime_message_get_subject`,
`g_mime_message_get_date`, `g_mime_message_get_message_id`,
`g_mime_object_get_header (msg, "References")` and `g_mime_message_get_body`. -/
structure GMimeMessage where
  addresses : GMimeAddressType → InternetAddressList
  subject : Option String
  date : Option GDateTime
  message_id : Option String
  header_References : Option String
  body : Option GMimeObject

/-- A stdio `FILE`. -/
structure FILE where
  fd : Nat
  deriving DecidableEq, Repr

/-- A `GMimeParser`. -/
structure GMimeParser where
  id : Nat
  deriving DecidableEq, Repr

/-- What the libraries and the operating system compute for the program.  Each
field is the function of that name; `strftime_c tm` is the expansion of the
format `"%c"` for `tm` in the current locale. -/
structure Lib where
  internet_address_list_to_string : InternetAddressList → Option String
  g_mime_references_parse : String → List String
  g_date_time_to_unix : Option GDateTime → Int
  localtime : Int → Tm
  strftime_c : Tm → String
  fopen : String → Option FILE
  g_mime_stream_file_new : FILE → Option GMimeStream
  g_mime_parser_new_with_stream : GMimeStream → Option GMimeParser
  g_mime_parser_construct_message : GMimeParser → Option GMimeMessage

/-! ## Effects -/

/-- The four `g_warning` calls of the program: no file, no stream, no parser, no
message. -/
inductive Warning where
  | cannot_open_file (path : String)
  | cannot_open_stream (path : String)
  | failed_to_create
  | failed_to_construct
  deriving DecidableEq, Repr

/-- The three objects the program drops its reference to. -/
inductive Object where
  | parser
  | stream
  | msg
  deriving DecidableEq, Repr

/-- The calls the program makes for their effect. -/
inductive Call where
  | setlocale
  | g_mime_init
  | g_mime_shutdown
  | fopen (path : String)
  | fclose (file : FILE)
  | g_object_unref (obj : Object)
  | g_mime_stream_read
  deriving DecidableEq, Repr

/-- The outside of the program: the bytes that reached standard output and
standard error, the warnings logged, the calls made, and how many more `write`
calls on standard output succeed before one fails (`none`: all of them). -/
structure World where
  stdout : List Char
  stderr : List Char
  warnings : List Warning
  calls : List Call
  write_budget : Option Nat
  deriving DecidableEq, Repr

/-- The function `g_print` with its default handler: the text goes to stdout
and stdout is flushed. -/
def g_print (s : String) (w : World) : World :=
  { w with stdout := w.stdout ++ s.data }

/-- The function `g_printerr` with its default handler. -/
def g_printerr (s : String) (w : World) : World :=
  { w with stderr := w.stderr ++ s.data }

/-- The function `g_warning`. -/
def g_warning (m : Warning) (w : World) : World :=
  { w with warnings := w.warnings ++ [m] }

/-- Record a call. -/
def call (c : Call) (w : World) : World :=
  { w with calls := w.calls ++ [c] }

/-- The call `write (fileno (stdout), buf, len)`: `false` stands for `-1`; a
successful call transfers the whole buffer. -/
def write (buf : List Char) (w : World) : Bool × World :=
  match w.write_budget with
  | some 0 => (false, w)
  | some (k + 1) => (true, { w with stdout := w.stdout ++ buf, write_budget := some k })
  | none => (true, { w with stdout := w.stdout ++ buf })

/-- The function `g_mime_stream_read (stream, buf, count)`: `none` stands for
`-1`, otherwise the bytes placed in `buf`, at most `count` of them; with the
stream after the call. -/
def g_mime_stream_read (stream : GMimeStream) (count : Nat) :
    Option (List Char) × GMimeStream :=
  match stream.reads with
  | [] => (some [], stream)
  | ReadResult.error :: rest => (none, ⟨rest⟩)
  | ReadResult.data bytes :: rest => (some (bytes.take count), ⟨rest⟩)

/-! ## Formatting -/

/-- The text substituted for a `NULL` string argument by `%s`. -/
def null_text : String := "(null)"

/-- Zero padding on the left up to `width` characters. -/
def pad0 (width : Nat) (digits : String) : String :=
  String.mk (List.replicate (width - digits.length) '0') ++ digits

/-- The conversion `%04ld` of printf: signed decimal, zero padded after the
sign to a minimum field width of 4. -/
def printf_04ld (n : Int) : String :=
  if n < 0 then "-" ++ pad0 3 (Nat.repr n.natAbs) else pad0 4 (Nat.repr n.toNat)

/-- The call `strftime (buf, max, "%c", t_m)`: the length returned and the
content of `buf`; the length is 0 when the text and its terminator do not fit
in `max` bytes. -/
def strftime (lib : Lib) (max : Nat) (t_m : Tm) : Nat × String :=
  let s := lib.strftime_c t_m
  if s.length + 1 ≤ max then (s.length, s) else (0, "")

/-! ## The program -/

/-- The function `get_recip`. -/
def get_recip (lib : Lib) (msg : GMimeMessage) (rtype : GMimeAddressType) : Option String :=
  let receps := msg.addresses rtype
  let recep := lib.internet_address_list_to_string receps
  match recep with
  | none => none
  | some s => if s.data = [] then none else some s

/-- One turn of the loop of `get_refs_str`: the `g_strdup_printf ("%s%s%s", ...)`. -/
def refs_step (mime_refs : List String) (rv : Option String) (i : Nat) : Option String :=
  let msgid := mime_refs.getD i null_text
  some ((match rv with | some s => s | none => "") ++
        (match rv with | some _ => "," | none => "") ++
        msgid)

/-- The function `get_refs_str`.  The source never assigns `rv` before the
loop; `rv0` is what the variable holds on entry. -/
def get_refs_str (lib : Lib) (rv0 : Option String) (msg : GMimeMessage) : Option String :=
  match msg.header_References with
  | none => none
  | some str =>
    let mime_refs := lib.g_mime_references_parse str
    let num_refs := mime_refs.length
    (List.range num_refs).foldl (refs_step mime_refs) rv0

/-- The function `print_date`. -/
def print_date (lib : Lib) (msg : GMimeMessage) (w : World) : World :=
  let time := msg.date
  let t := lib.g_date_time_to_unix time
  let t_m := lib.localtime t
  let (len, buf) := strftime lib (64 - 1) t_m
  if len > 0 then
    g_print ("Date   : " ++ buf ++ " (" ++ (if t_m.tm_gmtoff < 0 then "-" else "+") ++
      printf_04ld t_m.tm_gmtoff ++ ")\n") w
  else w

/-- The `do ... while (1)` loop of `print_body`, by recursion on the reads the
stream still has to give. -/
def print_body_loop : List ReadResult → World → World
  | [], w =>
    -- the read returns 0
    let w := call Call.g_mime_stream_read w
    (write [] w).2
  | ReadResult.error :: _, w =>
    -- len == -1
    call Call.g_mime_stream_read w
  | ReadResult.data bytes :: rest, w =>
    let w := call Call.g_mime_stream_read w
    let buf := bytes.take 512
    match write buf w with
    | (false, w) => w
    | (true, w) => if buf.length < 512 then w else print_body_loop rest w

/-- The function `print_body`. -/
def print_body (msg : GMimeMessage) (w : World) : World :=
  let body := msg.body
  let body :=
    match body with
    | some (GMimeObject.multipart children) => children.get? 0
    | b => b
  match body with
  | some (GMimeObject.part wrapper) =>
    match wrapper with
    | some wrapper =>
      match wrapper.stream with
      | some stream => print_body_loop stream.reads w
      | none => w
    | none => w
  | _ => w

/-- The text printed for a string that may be `NULL`. -/
def or_none (val : Option String) : String :=
  match val with
  | some s => s
  | none => "<none>"

/-- The function `test_message`. -/
def test_message (lib : Lib) (rv0 : Option String) (msg : GMimeMessage) (w : World) :
    Bool × World :=
  let val := get_recip lib msg GMimeAddressType.FROM
  let w := g_print ("From   : " ++ or_none val ++ "\n") w
  let val := get_recip lib msg GMimeAddressType.TO
  let w := g_print ("To     : " ++ or_none val ++ "\n") w
  let val := get_recip lib msg GMimeAddressType.CC
  let w := g_print ("Cc     : " ++ or_none val ++ "\n") w
  let val := get_recip lib msg GMimeAddressType.BCC
  let w := g_print ("Bcc    : " ++ or_none val ++ "\n") w
  let str := msg.subject
  let w := g_print ("Subject: " ++ or_none str ++ "\n") w
  let w := print_date lib msg w
  let str := msg.message_id
  let w := g_print ("Msg-id : " ++ or_none str ++ "\n") w
  let refsstr := get_refs_str lib rv0 msg
  let w := g_print ("Refs   : " ++ or_none refsstr ++ "\n") w
  let w := print_body msg w
  (true, w)

/-- The function `test_stream`. -/
def test_stream (lib : Lib) (rv0 : Option String) (stream : GMimeStream) (w : World) :
    Bool × World :=
  match lib.g_mime_parser_new_with_stream stream with
  | none =>
    let w := g_warning Warning.failed_to_create w
    (false, call (Call.g_object_unref Object.stream) w)
  | some parser =>
    match lib.g_mime_parser_construct_message parser with
    | none =>
      let w := g_warning Warning.failed_to_construct w
      (false, call (Call.g_object_unref Object.parser) w)
    | some msg =>
      let (rv, w) := test_message lib rv0 msg w
      let w := call (Call.g_object_unref Object.parser) w
      let w := call (Call.g_object_unref Object.msg) w
      (rv, w)

/-- The function `test_file`. -/
def test_file (lib : Lib) (rv0 : Option String) (path : String) (w : World) : Bool × World :=
  let w := call (Call.fopen path) w
  match lib.fopen path with
  | none =>
    let w := g_warning (Warning.cannot_open_file path) w
    (false, w)
  | some file =>
    match lib.g_mime_stream_file_new file with
    | none =>
      let w := g_warning (Warning.cannot_open_stream path) w
      (false, call (Call.fclose file) w)
    | some stream =>
      let (rv, w) := test_stream lib rv0 stream w
      (rv, call (Call.fclose file) w)

/-- The function `main`. -/
def main (lib : Lib) (rv0 : Option String) (argc : Int) (argv : List String) (w : World) :
    Int × World :=
  if argc ≠ 2 then
    (1, g_printerr ("usage: " ++ argv.getD 0 null_text ++ " <msg-file>\n") w)
  else
    let w := call Call.setlocale w
    let w := call Call.g_mime_init w
    let (rv, w) := test_file lib rv0 (argv.getD 1 null_text) w
    let w := call Call.g_mime_shutdown w
    (if rv then 0 else 1, w)

/-! ## Concrete data for examples -/

/-- A world with nothing written yet and a standard output that accepts every write. -/
def world0 : World :=
  { stdout := [], stderr := [], warnings := [], calls := [], write_budget := none }

/-- A stand-in for the tokenizer of the References header: the texts between
`<` and `>`, in order. -/
def scan_ids : List Char → Option (List Char) → List String
  | [], _ => []
  | c :: cs, none => if c = '<' then scan_ids cs (some []) else scan_ids cs none
  | c :: cs, some acc =>
    if c = '>' then String.mk acc.reverse :: scan_ids cs none else scan_ids cs (some (c :: acc))

/-- The message of the end-to-end example of the specification. -/
def msg_hi : GMimeMessage :=
  { addresses := fun rtype =>
      match rtype with
      | GMimeAddressType.FROM => [⟨none, "a@x.com"⟩]
      | GMimeAddressType.TO => [⟨none, "b@x.com"⟩]
      | _ => []
    subject := some "Hi"
    date := none
    message_id := none
    header_References := none
    body := some (GMimeObject.part (some ⟨GMimeContentEncoding.DEFAULT,
      some ⟨[ReadResult.data "Body text".data]⟩⟩)) }

/-- A stand-in for the libraries: local time at `off` seconds east of UTC, a
fixed date text, the first mailbox of a list as its text, and a single file
`"msg"` holding `msg_hi`. -/
def lib_tz (off : Int) : Lib :=
  { internet_address_list_to_string := fun l =>
      match l with
      | [] => none
      | a :: _ => some a.addr
    g_mime_references_parse := fun s => scan_ids s.data none
    g_date_time_to_unix := fun d =>
      match d with
      | none => 0
      | some d => d.seconds
    localtime := fun _ =>
      { tm_sec := 0, tm_min := 0, tm_hour := 0, tm_mday := 1, tm_mon := 0, tm_year := 70,
        tm_wday := 4, tm_yday := 0, tm_isdst := 0, tm_gmtoff := off }
    strftime_c := fun _ => "Thu Jan  1 00:00:00 1970"
    fopen := fun p => if p = "msg" then some ⟨3⟩ else none
    g_mime_stream_file_new := fun _ => some ⟨[]⟩
    g_mime_parser_new_with_stream := fun _ => some ⟨0⟩
    g_mime_parser_construct_message := fun _ => some msg_hi }

/-- A buffer-sized block of 512 bytes. -/
@[irreducible] def block512 : List Char := List.replicate 512 'a'

/-- The stand-in library in UTC. -/
def lib0 : Lib := lib_tz 0

/-- The stand-in library in a locale whose `%c` text is 66 characters long, more
than the 63 bytes `print_date` offers to `strftime`. -/
def lib_long : Lib :=
  { lib0 with
    strftime_c := fun _ => "Thursday 01 January 1970 00:00:00 Coordinated Universal Time +0000" }

/-- The message `msg_hi` with a Date header, a Message-Id and a References
header naming three messages. -/
def msg_full : GMimeMessage :=
  { msg_hi with
    date := some ⟨0⟩
    message_id := some "d@x"
    header_References := some "<a@x>, <b@x> <c@x>" }

/-- A message with none of the printed fields and no body. -/
def msg_empty : GMimeMessage :=
  { addresses := fun _ => []
    subject := none
    date := none
    message_id := none
    header_References := none
    body := none }

/-- A message whose only header is the References header `str`. -/
def msg_refs (str : String) : GMimeMessage :=
  { msg_empty with header_References := some str }

/-- A message whose body is `body`. -/
def msg_body (body : GMimeObject) : GMimeMessage :=
  { msg_empty with body := some body }

/-- A leaf part whose content has encoding `enc` and is read from `stream`. -/
def leaf (enc : GMimeContentEncoding) (stream : GMimeStream) : GMimeObject :=
  GMimeObject.part (some ⟨enc, some stream⟩)

/-! ## Streams and their content -/

/-- The bytes a stream has still to deliver: those of its coming reads, in order. -/
def stream_content : List ReadResult → List Char
  | [] => []
  | ReadResult.error :: rest => stream_content rest
  | ReadResult.data bytes :: rest => bytes ++ stream_content rest

/-- No read of the stream fails and each one returns `min (512, remaining)` bytes. -/
def full_reads : List ReadResult → Prop
  | [] => True
  | ReadResult.error :: _ => False
  | ReadResult.data bytes :: rest =>
    bytes.length = min 512 (bytes ++ stream_content rest).length ∧ full_reads rest

/-- The reads of a stream over `content` that returns `min (512, remaining)`
bytes per call; `fuel` bounds the number of reads. -/
def reads_of : Nat → List Char → List ReadResult
  | 0, _ => []
  | fuel + 1, content =>
    if content = [] then [] else
      ReadResult.data (content.take 512) :: reads_of fuel (content.drop 512)

/-- The in-memory stream over `content`. -/
def stream_of (content : List Char) : GMimeStream := ⟨reads_of content.length content⟩

/-! ## What two steps of `test_message` write -/

/-- The bytes `print_date` writes. -/
def date_text (lib : Lib) (msg : GMimeMessage) : List Char :=
  (print_date lib msg world0).stdout

/-- The bytes `print_body` writes when `budget` says how many writes succeed. -/
def body_bytes (msg : GMimeMessage) (budget : Option Nat) : List Char :=
  (print_body msg ⟨[], [], [], [], budget⟩).stdout

/-! ## The References string -/

/-- The ids joined by single commas. -/
def comma_join (ids : List String) : String := String.intercalate "," ids

/-- What `get_refs_str` puts before the joined ids. -/
def rv_lead (rv0 : Option String) : String :=
  match rv0 with
  | some s => s ++ ","
  | none => ""

/-- One turn of the loop, by the id instead of its index. -/
def refs_push (rv : Option String) (msgid : String) : Option String :=
  some ((match rv with | some s => s | none => "") ++
        (match rv with | some _ => "," | none => "") ++
        msgid)

theorem foldl_range_eq_foldl (pre l : List String) (rv : Option String) :
    (List.range' pre.length l.length).foldl (refs_step (pre ++ l)) rv = l.foldl refs_push rv := by
  induction l generalizing pre rv with
  | nil => simp
  | cons a l ih =>
    have h := ih (pre ++ [a]) (refs_push rv a)
    simp only [List.length_append, List.length_cons, List.length_nil, List.append_assoc,
      List.singleton_append, Nat.zero_add] at h
    simp only [List.length_cons, List.range'_succ, List.foldl_cons]
    rw [← h]
    congr 1
    have hget : (pre ++ a :: l).getD pre.length null_text = a := by
      rw [List.getD_eq_getElem?_getD, List.getElem?_append_right (Nat.le_refl _)]; simp
    simp only [refs_step, refs_push, hget]

theorem intercalate_go_append (p a s : String) (l : List String) :
    String.intercalate.go (p ++ a) s l = p ++ String.intercalate.go a s l := by
  induction l generalizing a with
  | nil => simp [String.intercalate.go]
  | cons b l ih =>
    simp only [String.intercalate.go]
    rw [String.append_assoc, String.append_assoc, ih, String.append_assoc]

theorem foldl_push_some (acc : String) (l : List String) :
    l.foldl refs_push (some acc) = some (String.intercalate.go acc "," l) := by
  induction l generalizing acc with
  | nil => simp [String.intercalate.go]
  | cons b l ih => simp [refs_push, String.intercalate.go, ih]

theorem foldl_push (rv0 : Option String) (a : String) (l : List String) :
    (a :: l).foldl refs_push rv0 = some (rv_lead rv0 ++ comma_join (a :: l)) := by
  cases rv0 with
  | none =>
    simp [refs_push, rv_lead, comma_join, String.intercalate, foldl_push_some]
  | some s =>
    simp only [List.foldl_cons, refs_push, rv_lead, comma_join, String.intercalate,
      foldl_push_some]
    rw [intercalate_go_append]

theorem refs_loop_eq (ids : List String) (rv0 : Option String) :
    (List.range ids.length).foldl (refs_step ids) rv0 = ids.foldl refs_push rv0 := by
  have h := foldl_range_eq_foldl [] ids rv0
  simpa [List.range_eq_range'] using h

/-- C7: in `get_refs_str` the variable `rv` is read before it is assigned.  With
its initial content `rv0` as an input: when the References header is present and
the library gives at least one message-id, the result is `rv0` (if not `NULL`)
and a comma, followed by the comma join of the ids, so it is the plain join
exactly for `rv0 = NULL`; when the header is present and gives no message-id the
result is `rv0` itself. -/
theorem get_refs_str_uninit (lib : Lib) (rv0 : Option String) (msg : GMimeMessage)
    (str : String) (hstr : msg.header_References = some str) :
    (∀ id ids, lib.g_mime_references_parse str = id :: ids →
      get_refs_str lib rv0 msg = some (rv_lead rv0 ++ comma_join (id :: ids)) ∧
      get_refs_str lib none msg = some (comma_join (id :: ids)) ∧
      ∀ s, get_refs_str lib (some s) msg = some (s ++ "," ++ comma_join (id :: ids))) ∧
    (lib.g_mime_references_parse str = [] → get_refs_str lib rv0 msg = rv0) := by
  have key : ∀ r, get_refs_str lib r msg =
      (lib.g_mime_references_parse str).foldl refs_push r := by
    intro r
    simp only [get_refs_str, hstr]
    exact refs_loop_eq _ r
  refine ⟨?_, ?_⟩
  · intro id ids hids
    refine ⟨?_, ?_, ?_⟩
    · rw [key, hids, foldl_push]
    · rw [key, hids, foldl_push]; simp [rv_lead]
    · intro s; rw [key, hids, foldl_push]; simp [rv_lead]
  · intro hids
    rw [key, hids]; rfl

theorem get_refs_str_uninit_witness :
    get_refs_str lib0 (some "junk") (msg_refs "<a@x>, <b@x> <c@x>") =
        some ("junk," ++ "a@x,b@x,c@x") ∧
    get_refs_str lib0 (some "junk") (msg_refs "no ids here") = some "junk" := by
  have h := get_refs_str_uninit lib0 (some "junk") (msg_refs "<a@x>, <b@x> <c@x>")
    "<a@x>, <b@x> <c@x>" rfl
  have h2 := get_refs_str_uninit lib0 (some "junk") (msg_refs "no ids here") "no ids here" rfl
  refine ⟨?_, h2.2 (by decide)⟩
  have h3 := (h.1 "a@x" ["b@x", "c@x"] (by decide)).1
  rw [h3]; decide

/-- C5, at an input where the code departs from it: the References header gives
the ids `a@x`, `b@x`, `c@x`, and the unassigned `rv` holds the text `junk` on
entry.  The result starts with that text; with `rv` holding `NULL` it is the
plain join. -/
theorem get_refs_str_junk :
    get_refs_str lib0 (some "junk") (msg_refs "<a@x>, <b@x> <c@x>") = some "junk,a@x,b@x,c@x" ∧
    get_refs_str lib0 (some "junk") (msg_refs "<a@x>, <b@x> <c@x>") ≠ some "a@x,b@x,c@x" ∧
    get_refs_str lib0 none (msg_refs "<a@x>, <b@x> <c@x>") = some "a@x,b@x,c@x" ∧
    get_refs_str lib0 (some "junk") msg_empty = none := by
  decide

/-! ## The copy loop of `print_body` -/

@[simp] theorem call_stdout (c : Call) (w : World) : (call c w).stdout = w.stdout := rfl

@[simp] theorem call_stderr (c : Call) (w : World) : (call c w).stderr = w.stderr := rfl

@[simp] theorem call_warnings (c : Call) (w : World) : (call c w).warnings = w.warnings := rfl

@[simp] theorem call_calls (c : Call) (w : World) : (call c w).calls = w.calls ++ [c] := rfl

@[simp] theorem call_write_budget (c : Call) (w : World) :
    (call c w).write_budget = w.write_budget := rfl

@[simp] theorem g_print_stdout (s : String) (w : World) :
    (g_print s w).stdout = w.stdout ++ s.data := rfl

@[simp] theorem g_print_stderr (s : String) (w : World) : (g_print s w).stderr = w.stderr := rfl

@[simp] theorem g_print_warnings (s : String) (w : World) :
    (g_print s w).warnings = w.warnings := rfl

@[simp] theorem g_print_calls (s : String) (w : World) : (g_print s w).calls = w.calls := rfl

@[simp] theorem g_print_write_budget (s : String) (w : World) :
    (g_print s w).write_budget = w.write_budget := rfl

theorem write_unlimited (buf : List Char) (w : World) (hw : w.write_budget = none) :
    write buf w = (true, { w with stdout := w.stdout ++ buf }) := by
  simp [write, hw]

theorem write_exhausted (buf : List Char) (w : World) (hw : w.write_budget = some 0) :
    write buf w = (false, w) := by
  simp [write, hw]

theorem write_counted (buf : List Char) (w : World) (k : Nat)
    (hw : w.write_budget = some (k + 1)) :
    write buf w = (true, { w with stdout := w.stdout ++ buf, write_budget := some k }) := by
  simp [write, hw]

theorem loop_data_full (c : List Char) (rest : List ReadResult) (w : World)
    (hc : c.length = 512) :
    print_body_loop (ReadResult.data c :: rest) w =
      match write c (call Call.g_mime_stream_read w) with
      | (false, w) => w
      | (true, w) => print_body_loop rest w := by
  have ht : List.take 512 c = c := List.take_of_length_le (by omega)
  simp only [print_body_loop, ht, hc, lt_irrefl, if_false]

theorem loop_data_short (c : List Char) (rest : List ReadResult) (w : World)
    (hc : c.length < 512) :
    print_body_loop (ReadResult.data c :: rest) w =
      (write c (call Call.g_mime_stream_read w)).2 := by
  have ht : List.take 512 c = c := List.take_of_length_le (by omega)
  simp only [print_body_loop, ht, hc, if_true]
  rcases h : write c (call Call.g_mime_stream_read w) with ⟨b, w2⟩
  cases b <;> rfl

/-- The loop as the source has it: one `g_mime_stream_read` into a buffer of 512
bytes, the three `break` tests, and the loop again on the stream after the read. -/
theorem print_body_loop_unfold (stream : GMimeStream) (w : World) :
    print_body_loop stream.reads w =
      match g_mime_stream_read stream 512 with
      | (none, _) => call Call.g_mime_stream_read w
      | (some buf, stream2) =>
        match write buf (call Call.g_mime_stream_read w) with
        | (false, w2) => w2
        | (true, w2) => if buf.length < 512 then w2 else print_body_loop stream2.reads w2 := by
  rcases stream with ⟨reads⟩
  cases reads with
  | nil =>
    simp only [print_body_loop, g_mime_stream_read]
    rcases write [] (call Call.g_mime_stream_read w) with ⟨b, w2⟩
    cases b <;> simp
  | cons r rest =>
    cases r with
    | error => simp [print_body_loop, g_mime_stream_read]
    | data c => simp [print_body_loop, g_mime_stream_read]

theorem full_reads_loop (s : List ReadResult) (w : World) (hs : full_reads s)
    (hw : w.write_budget = none) :
    (print_body_loop s w).stdout = w.stdout ++ stream_content s ∧
    (print_body_loop s w).calls =
      w.calls ++ List.replicate ((stream_content s).length / 512 + 1) Call.g_mime_stream_read := by
  induction s generalizing w with
  | nil =>
    simp [print_body_loop, stream_content, write, hw]
  | cons r rest ih =>
    cases r with
    | error => exact absurd hs (by simp [full_reads])
    | data c =>
      obtain ⟨hlen, hrest⟩ := hs
      rw [List.length_append] at hlen
      have hw2 : (call Call.g_mime_stream_read w).write_budget = none := by simpa using hw
      by_cases hc : c.length < 512
      · have hz : (stream_content rest).length = 0 := by omega
        have hnil : stream_content rest = [] := List.length_eq_zero.mp hz
        rw [loop_data_short c rest w hc, write_unlimited _ _ hw2]
        have hdiv : c.length / 512 = 0 := Nat.div_eq_of_lt hc
        simp [stream_content, hnil, hdiv]
      · have hc2 : c.length = 512 := by omega
        rw [loop_data_full c rest w hc2, write_unlimited _ _ hw2]
        have hdiv : (c.length + (stream_content rest).length) / 512 =
            (stream_content rest).length / 512 + 1 := by
          rw [hc2, Nat.add_comm, Nat.add_div_right _ (by norm_num)]
        have h := ih ⟨w.stdout ++ c, w.stderr, w.warnings, w.calls ++ [Call.g_mime_stream_read],
          w.write_budget⟩ hrest hw
        change (print_body_loop rest ⟨w.stdout ++ c, w.stderr, w.warnings,
            w.calls ++ [Call.g_mime_stream_read], w.write_budget⟩).stdout = _ ∧
          (print_body_loop rest ⟨w.stdout ++ c, w.stderr, w.warnings,
            w.calls ++ [Call.g_mime_stream_read], w.write_budget⟩).calls = _
        rw [h.1, h.2]
        simp [stream_content, hdiv, List.replicate_succ]

theorem reads_of_content (fuel : Nat) (content : List Char) (h : content.length ≤ fuel) :
    stream_content (reads_of fuel content) = content := by
  induction fuel generalizing content with
  | zero =>
    have : content = [] := List.length_eq_zero.mp (by omega)
    simp [reads_of, stream_content, this]
  | succ n ih =>
    by_cases hc : content = []
    · simp [reads_of, stream_content, hc]
    · have hpos : 0 < content.length := List.length_pos.mpr hc
      have hd : (content.drop 512).length ≤ n := by rw [List.length_drop]; omega
      simp only [reads_of, hc, if_false, stream_content, ih _ hd, List.take_append_drop]

theorem reads_of_full (fuel : Nat) (content : List Char) (h : content.length ≤ fuel) :
    full_reads (reads_of fuel content) := by
  induction fuel generalizing content with
  | zero => simp [reads_of, full_reads]
  | succ n ih =>
    by_cases hc : content = []
    · simp [reads_of, full_reads, hc]
    · have hpos : 0 < content.length := List.length_pos.mpr hc
      have hd : (content.drop 512).length ≤ n := by rw [List.length_drop]; omega
      simp only [reads_of, hc, if_false, full_reads, reads_of_content _ _ hd,
        List.take_append_drop, List.length_take]
      exact ⟨trivial, ih _ hd⟩

/-- For every content there is a stream of `min (512, remaining)` reads over it. -/
theorem stream_of_full (content : List Char) :
    full_reads (stream_of content).reads ∧ stream_content (stream_of content).reads = content :=
  ⟨reads_of_full _ _ (Nat.le_refl _), reads_of_content _ _ (Nat.le_refl _)⟩

theorem loop_full_chunks (full : List (List Char)) (hfull : ∀ c ∈ full, c.length = 512)
    (rest : List ReadResult) (w : World) (hw : w.write_budget = none) :
    print_body_loop (full.map ReadResult.data ++ rest) w =
      print_body_loop rest ⟨w.stdout ++ full.flatten, w.stderr, w.warnings,
        w.calls ++ List.replicate full.length Call.g_mime_stream_read, none⟩ := by
  induction full generalizing w with
  | nil =>
    cases w
    simp only at hw
    simp [hw]
  | cons c full ih =>
    have hc : c.length = 512 := hfull c (List.mem_cons_self _ _)
    have hf : ∀ d ∈ full, d.length = 512 := fun d hd => hfull d (List.mem_cons_of_mem _ hd)
    have hw2 : (call Call.g_mime_stream_read w).write_budget = none := by simpa using hw
    simp only [List.map_cons, List.cons_append]
    rw [loop_data_full c _ w hc, write_unlimited _ _ hw2]
    have h := ih hf ⟨w.stdout ++ c, w.stderr, w.warnings, w.calls ++ [Call.g_mime_stream_read],
      w.write_budget⟩ hw
    change print_body_loop (full.map ReadResult.data ++ rest) ⟨w.stdout ++ c, w.stderr,
      w.warnings, w.calls ++ [Call.g_mime_stream_read], w.write_budget⟩ = _
    rw [h]
    simp [List.replicate_succ]

theorem loop_full_chunks_counted (full : List (List Char))
    (hfull : ∀ c ∈ full, c.length = 512) (rest : List ReadResult) (w : World) (k : Nat)
    (hw : w.write_budget = some (full.length + k)) :
    print_body_loop (full.map ReadResult.data ++ rest) w =
      print_body_loop rest ⟨w.stdout ++ full.flatten, w.stderr, w.warnings,
        w.calls ++ List.replicate full.length Call.g_mime_stream_read, some k⟩ := by
  induction full generalizing w with
  | nil =>
    cases w
    simp only at hw
    simp [hw]
  | cons c full ih =>
    have hc : c.length = 512 := hfull c (List.mem_cons_self _ _)
    have hf : ∀ d ∈ full, d.length = 512 := fun d hd => hfull d (List.mem_cons_of_mem _ hd)
    have hw2 : (call Call.g_mime_stream_read w).write_budget = some (full.length + k + 1) := by
      simp only [call_write_budget, hw, List.length_cons]; congr 1; omega
    simp only [List.map_cons, List.cons_append]
    rw [loop_data_full c _ w hc, write_counted _ _ _ hw2]
    have h := ih hf ⟨w.stdout ++ c, w.stderr, w.warnings, w.calls ++ [Call.g_mime_stream_read],
      some (full.length + k)⟩ rfl
    change print_body_loop (full.map ReadResult.data ++ rest) ⟨w.stdout ++ c, w.stderr,
      w.warnings, w.calls ++ [Call.g_mime_stream_read], some (full.length + k)⟩ = _
    rw [h]
    simp [List.replicate_succ]

theorem stream_content_full_chunks (full : List (List Char)) (rest : List ReadResult) :
    stream_content (full.map ReadResult.data ++ rest) = full.flatten ++ stream_content rest := by
  induction full with
  | nil => simp
  | cons c full ih => simp [stream_content, ih]

theorem test_message_true (lib : Lib) (rv0 : Option String) (msg : GMimeMessage) (w : World) :
    (test_message lib rv0 msg w).1 = true := rfl

/-- C8: for every stream that never fails and returns `min (512, remaining)`
bytes per read, with `N` bytes of content, and a standard output that accepts
every write, the copy loop of `print_body` ends after `N / 512 + 1` reads and
has written exactly the `N` bytes of the stream, in order, each once; this
includes `N = 0` and `N` a multiple of 512. -/
theorem copy_loop_full_stream (msg : GMimeMessage) (enc : GMimeContentEncoding)
    (stream : GMimeStream) (w : World) (hbody : msg.body = some (leaf enc stream))
    (hs : full_reads stream.reads) (hw : w.write_budget = none) :
    (print_body msg w).stdout = w.stdout ++ stream_content stream.reads ∧
    (print_body msg w).calls = w.calls ++
      List.replicate ((stream_content stream.reads).length / 512 + 1) Call.g_mime_stream_read := by
  have h : print_body msg w = print_body_loop stream.reads w := by
    simp [print_body, hbody, leaf]
  rw [h]
  exact full_reads_loop stream.reads w hs hw

theorem block512_length : block512.length = 512 := by
  unfold block512
  exact List.length_replicate 512 'a' 

theorem full_reads_block_b : full_reads [ReadResult.data block512, ReadResult.data ['b']] := by
  simp only [full_reads, stream_content, List.length_append, block512_length, List.length_cons,
    List.length_nil]
  norm_num

theorem full_reads_block : full_reads [ReadResult.data block512] := by
  simp only [full_reads, stream_content, List.length_append, block512_length, List.length_nil]
  norm_num

theorem copy_loop_full_stream_witness :
    ((print_body (msg_body (leaf GMimeContentEncoding.DEFAULT ⟨[]⟩)) world0).stdout = [] ∧
     (print_body (msg_body (leaf GMimeContentEncoding.DEFAULT ⟨[]⟩)) world0).calls =
       [Call.g_mime_stream_read]) ∧
    ((print_body (msg_body (leaf GMimeContentEncoding.DEFAULT
        ⟨[ReadResult.data block512, ReadResult.data ['b']]⟩)) world0).stdout =
       block512 ++ ['b'] ∧
     (print_body (msg_body (leaf GMimeContentEncoding.DEFAULT
        ⟨[ReadResult.data block512, ReadResult.data ['b']]⟩)) world0).calls =
       [Call.g_mime_stream_read, Call.g_mime_stream_read]) ∧
    ((print_body (msg_body (leaf GMimeContentEncoding.DEFAULT
        ⟨[ReadResult.data block512]⟩)) world0).stdout = block512 ∧
     (print_body (msg_body (leaf GMimeContentEncoding.DEFAULT
        ⟨[ReadResult.data block512]⟩)) world0).calls =
       [Call.g_mime_stream_read, Call.g_mime_stream_read]) := by
  refine ⟨?_, ?_, ?_⟩
  · simpa [stream_content, world0] using
      copy_loop_full_stream (msg_body (leaf GMimeContentEncoding.DEFAULT ⟨[]⟩))
        GMimeContentEncoding.DEFAULT ⟨[]⟩ world0 rfl trivial rfl
  · simpa [stream_content, world0, block512_length, List.replicate_succ] using
      copy_loop_full_stream (msg_body (leaf GMimeContentEncoding.DEFAULT
        ⟨[ReadResult.data block512, ReadResult.data ['b']]⟩))
        GMimeContentEncoding.DEFAULT
        ⟨[ReadResult.data block512, ReadResult.data ['b']]⟩ world0 rfl full_reads_block_b rfl
  · simpa [stream_content, world0, block512_length, List.replicate_succ] using
      copy_loop_full_stream (msg_body (leaf GMimeContentEncoding.DEFAULT
        ⟨[ReadResult.data block512]⟩))
        GMimeContentEncoding.DEFAULT
        ⟨[ReadResult.data block512]⟩ world0 rfl full_reads_block rfl

theorem loop_budget_spent (s : List ReadResult) (w : World) (hw : w.write_budget = some 0) :
    print_body_loop s w = call Call.g_mime_stream_read w := by
  have hw2 : (call Call.g_mime_stream_read w).write_budget = some 0 := by simpa using hw
  cases s with
  | nil => simp [print_body_loop, write_exhausted _ _ hw2]
  | cons r rest =>
    cases r with
    | error => simp [print_body_loop]
    | data c => simp [print_body_loop, write_exhausted _ _ hw2]

theorem test_file_result_free (lib : Lib) (rv0 : Option String) (path : String)
    (w w2 : World) :
    (test_file lib rv0 path w).1 = (test_file lib rv0 path w2).1 := by
  rcases hf : lib.fopen path with _ | file
  · simp [test_file, hf]
  · rcases hs : lib.g_mime_stream_file_new file with _ | stream
    · simp [test_file, hf, hs]
    · rcases hp : lib.g_mime_parser_new_with_stream stream with _ | parser
      · simp [test_file, hf, hs, test_stream, hp]
      · rcases hm : lib.g_mime_parser_construct_message parser with _ | msg
        · simp [test_file, hf, hs, test_stream, hp, hm]
        · simp [test_file, hf, hs, test_stream, hp, hm, test_message]

theorem main_code_free (lib : Lib) (rv0 : Option String) (argc : Int) (argv : List String)
    (w w2 : World) :
    (main lib rv0 argc argv w).1 = (main lib rv0 argc argv w2).1 := by
  by_cases h : argc = 2
  · have e : ∀ v : World, (main lib rv0 argc argv v).1 =
        if (test_file lib rv0 (argv.getD 1 null_text) (call Call.g_mime_init
          (call Call.setlocale v))).1 then 0 else 1 := by
      intro v
      simp only [main, h, ne_eq, not_true_eq_false, if_false]
    rw [e w, e w2, test_file_result_free lib rv0 _ _
      (call Call.g_mime_init (call Call.setlocale w2))]
  · simp [main, h]

/-- C9: the copy loop of `print_body` stops at the first read that returns fewer
than 512 bytes, whatever the stream would still give.  After any number of full
reads, each written in full: a short read `bs` ends the loop with the full
chunks and `bs` on standard output, one read more than the full ones and no
other effect, the rest of the content never read or written; a read error ends
it the same way with the full chunks on standard output; a write that fails ends
it at once, after the one read whose bytes could not be written, whatever that
read returned and whatever the stream would still give.  In none of the three
cases is anything added to standard error or to the warnings.  There is a stream
with a short non-empty read whose output is a strict initial segment of its
content.  `test_message` returns `TRUE` all the same, and the exit code of
`main` does not depend on the state of standard output. -/
theorem copy_loop_stops_early (full : List (List Char)) (hfull : ∀ c ∈ full, c.length = 512)
    (rest : List ReadResult) (w : World) (hw : w.write_budget = none) :
    (∀ bs : List Char, bs.length < 512 →
      print_body_loop (full.map ReadResult.data ++ ReadResult.data bs :: rest) w =
        ⟨w.stdout ++ (full.flatten ++ bs), w.stderr, w.warnings,
          w.calls ++ List.replicate (full.length + 1) Call.g_mime_stream_read, none⟩ ∧
      stream_content (full.map ReadResult.data ++ ReadResult.data bs :: rest) =
        (full.flatten ++ bs) ++ stream_content rest) ∧
    print_body_loop (full.map ReadResult.data ++ ReadResult.error :: rest) w =
      ⟨w.stdout ++ full.flatten, w.stderr, w.warnings,
        w.calls ++ List.replicate (full.length + 1) Call.g_mime_stream_read, none⟩ ∧
    print_body_loop (full.map ReadResult.data ++ rest)
        { w with write_budget := some full.length } =
      ⟨w.stdout ++ full.flatten, w.stderr, w.warnings,
        w.calls ++ List.replicate (full.length + 1) Call.g_mime_stream_read, some 0⟩ ∧
    (∃ s : List ReadResult, ∃ unwritten : List Char, unwritten ≠ [] ∧
      (print_body_loop s world0).stdout ≠ [] ∧
      stream_content s = (print_body_loop s world0).stdout ++ unwritten) ∧
    (∀ (lib : Lib) (rv0 : Option String) (msg : GMimeMessage) (w2 : World),
      (test_message lib rv0 msg w2).1 = true) ∧
    (∀ (lib : Lib) (rv0 : Option String) (argc : Int) (argv : List String) (w1 w2 : World),
      (main lib rv0 argc argv w1).1 = (main lib rv0 argc argv w2).1) := by
  refine ⟨?_, ?_, ?_, ?_, ?_, ?_⟩
  · intro bs hbs
    refine ⟨?_, ?_⟩
    · rw [loop_full_chunks full hfull _ w hw, loop_data_short bs rest _ hbs,
        write_unlimited _ _ rfl]
      simp [call, List.replicate_succ']
    · simp [stream_content_full_chunks, stream_content]
  · rw [loop_full_chunks full hfull _ w hw]
    simp [print_body_loop, call, List.replicate_succ']
  · rw [loop_full_chunks_counted full hfull rest _ 0 rfl, loop_budget_spent _ _ rfl]
    simp [call, List.replicate_succ']
  · exact ⟨[ReadResult.data ['a', 'b'], ReadResult.data ['c', 'd']], ['c', 'd'],
      by decide, by decide, by decide⟩
  · intro lib rv0 msg w2
    exact test_message_true lib rv0 msg w2
  · intro lib rv0 argc argv w1 w2
    exact main_code_free lib rv0 argc argv w1 w2

theorem copy_loop_stops_early_witness :
    print_body_loop [ReadResult.data block512, ReadResult.data ['b', 'c'],
        ReadResult.data ['d']] world0 =
      ⟨block512 ++ ['b', 'c'], [], [], [Call.g_mime_stream_read, Call.g_mime_stream_read],
        none⟩ ∧
    print_body_loop [ReadResult.data block512, ReadResult.error,
        ReadResult.data block512, ReadResult.data ['d']] world0 =
      ⟨block512, [], [], [Call.g_mime_stream_read, Call.g_mime_stream_read], none⟩ ∧
    print_body_loop [ReadResult.data block512, ReadResult.data block512,
        ReadResult.data ['d']] { world0 with write_budget := some 1 } =
      ⟨block512, [], [], [Call.g_mime_stream_read, Call.g_mime_stream_read], some 0⟩ := by
  have hfull : ∀ c ∈ [block512], c.length = 512 := by
    intro c hc
    rw [List.mem_singleton.mp hc]
    exact block512_length
  refine ⟨?_, ?_, ?_⟩
  · have h := copy_loop_stops_early [block512] hfull [ReadResult.data ['d']] world0 rfl
    simpa [world0, List.replicate_succ] using (h.1 ['b', 'c'] (by simp)).1
  · have h := copy_loop_stops_early [block512] hfull
      [ReadResult.data block512, ReadResult.data ['d']] world0 rfl
    simpa [world0, List.replicate_succ] using h.2.1
  · have h := copy_loop_stops_early [block512] hfull
      [ReadResult.data block512, ReadResult.data ['d']] world0 rfl
    simpa [world0, List.replicate_succ] using h.2.2.1

/-- C4: when the body of the message is a multipart, `print_body` prints its
child at index 0 and nothing else: two multipart bodies with the same first
child and any other children give the same run, and when that child is a leaf
the run is the copy loop over its content stream.  A body that is not a
multipart is printed itself: a leaf body gives the copy loop over its own
stream, the same run as a multipart with that leaf as its first child. -/
theorem print_body_first_child (msg : GMimeMessage) (w : World) :
    (∀ (c : GMimeObject) (rest1 rest2 : List GMimeObject),
      print_body { msg with body := some (GMimeObject.multipart (c :: rest1)) } w =
      print_body { msg with body := some (GMimeObject.multipart (c :: rest2)) } w) ∧
    (∀ (enc : GMimeContentEncoding) (stream : GMimeStream) (rest : List GMimeObject),
      print_body { msg with body := some (GMimeObject.multipart (leaf enc stream :: rest)) } w =
        print_body_loop stream.reads w) ∧
    (∀ (enc : GMimeContentEncoding) (stream : GMimeStream),
      print_body { msg with body := some (leaf enc stream) } w =
        print_body_loop stream.reads w) ∧
    (∀ (content : Option GMimeDataWrapper) (rest : List GMimeObject),
      print_body { msg with body := some (GMimeObject.part content) } w =
      print_body { msg with body := some (GMimeObject.multipart
        (GMimeObject.part content :: rest)) } w) := by
  refine ⟨?_, ?_, ?_, ?_⟩
  · intro c rest1 rest2; rfl
  · intro enc stream rest; rfl
  · intro enc stream; rfl
  · intro content rest; rfl

/-- C6, as the code has it: `print_body` writes the bytes it reads from the
stream of the data wrapper of the part as they are and never looks at the
transfer encoding of the wrapper: the run is the same for every encoding, and
for a stream of full reads and a standard output that accepts every write the
bytes written are the content of that stream. -/
theorem print_body_ignores_encoding (msg : GMimeMessage) (enc : GMimeContentEncoding)
    (stream : GMimeStream) (w : World) (hs : full_reads stream.reads)
    (hw : w.write_budget = none) :
    print_body { msg with body := some (leaf enc stream) } w =
      print_body { msg with body := some (leaf GMimeContentEncoding.DEFAULT stream) } w ∧
    (print_body { msg with body := some (leaf enc stream) } w).stdout =
      w.stdout ++ stream_content stream.reads := by
  refine ⟨rfl, ?_⟩
  have h : print_body { msg with body := some (leaf enc stream) } w =
      print_body_loop stream.reads w := rfl
  rw [h]
  exact (full_reads_loop stream.reads w hs hw).1

theorem print_body_ignores_encoding_witness :
    print_body (msg_body (leaf GMimeContentEncoding.BASE64
        ⟨[ReadResult.data "aGVsbG8=".data]⟩)) world0 =
      print_body (msg_body (leaf GMimeContentEncoding.DEFAULT
        ⟨[ReadResult.data "aGVsbG8=".data]⟩)) world0 ∧
    (print_body (msg_body (leaf GMimeContentEncoding.BASE64
        ⟨[ReadResult.data "aGVsbG8=".data]⟩)) world0).stdout = [] ++ "aGVsbG8=".data :=
  print_body_ignores_encoding msg_empty GMimeContentEncoding.BASE64
    ⟨[ReadResult.data "aGVsbG8=".data]⟩ world0 (by simp [full_reads, stream_content]) rfl

/-- C6 fails on the code: for a first body part with transfer encoding base64
whose content stream holds `aGVsbG8=`, the bytes written to standard output are
`aGVsbG8=` and not `hello`. -/
theorem base64_body_not_decoded :
    (print_body (msg_body (leaf GMimeContentEncoding.BASE64
      ⟨[ReadResult.data "aGVsbG8=".data]⟩)) world0).stdout = "aGVsbG8=".data ∧
    (print_body (msg_body (leaf GMimeContentEncoding.BASE64
      ⟨[ReadResult.data "aGVsbG8=".data]⟩)) world0).stdout ≠ "hello".data := by
  decide

/-! ## The date line -/

/-- The conversion `%04ld` on a few values. -/
theorem printf_04ld_values :
    printf_04ld 3600 = "3600" ∧ printf_04ld (-18000) = "-18000" ∧
    printf_04ld (-5) = "-005" ∧ printf_04ld 5 = "0005" ∧ printf_04ld 0 = "0000" := by
  decide

theorem pad0_length (width : Nat) (digits : String) : width ≤ (pad0 width digits).length := by
  unfold pad0
  rw [String.length_append]
  have h : (String.mk (List.replicate (width - digits.length) '0')).length =
      width - digits.length := by
    show (List.replicate (width - digits.length) '0').length = width - digits.length
    exact List.length_replicate _ _
  rw [h]
  omega

theorem printf_04ld_length (n : Int) : 4 ≤ (printf_04ld n).length := by
  unfold printf_04ld
  split
  · rw [String.length_append]
    have h := pad0_length 3 (Nat.repr n.natAbs)
    have h1 : "-".length = 1 := rfl
    omega
  · exact pad0_length 4 _

theorem print_date_eq (lib : Lib) (msg : GMimeMessage) (w : World) :
    print_date lib msg w =
      if 0 < (strftime lib 63 (lib.localtime (lib.g_date_time_to_unix msg.date))).1 then
        g_print ("Date   : " ++
          (strftime lib 63 (lib.localtime (lib.g_date_time_to_unix msg.date))).2 ++ " (" ++
          (if (lib.localtime (lib.g_date_time_to_unix msg.date)).tm_gmtoff < 0
            then "-" else "+") ++
          printf_04ld (lib.localtime (lib.g_date_time_to_unix msg.date)).tm_gmtoff ++ ")\n") w
      else w := rfl

theorem print_date_frame (lib : Lib) (msg : GMimeMessage) (w : World) :
    print_date lib msg w = { w with stdout := w.stdout ++ date_text lib msg } := by
  unfold date_text
  rw [print_date_eq, print_date_eq]
  split
  · simp [g_print, world0]
  · simp [world0]

/-- C10: when `strftime` gives a non-empty text, `print_date` prints
`Date   : `, that text, ` (`, the sign character (`-` for `tm_gmtoff < 0`,
otherwise `+`), then `tm_gmtoff` under `%04ld`, then `)` and a newline; when it
gives length 0 nothing is printed.  The number is the offset in seconds, in
decimal, zero padded to width 4, with its own minus sign when negative, so a
negative offset prints two minus signs: `-18000` prints `(--18000)` and `3600`
prints `(+3600)`.  The field is never shorter than 4 characters: `5` prints
`(+0005)`, `-5` prints `(--005)`, `45` prints `(+0045)`, `-450` prints `(--450)`
and `0` prints `(+0000)`. -/
theorem print_date_zone (lib : Lib) (msg : GMimeMessage) (w : World) :
    (0 < (strftime lib 63 (lib.localtime (lib.g_date_time_to_unix msg.date))).1 →
      (print_date lib msg w).stdout = w.stdout ++ ("Date   : " ++
        (strftime lib 63 (lib.localtime (lib.g_date_time_to_unix msg.date))).2 ++ " (" ++
        (if (lib.localtime (lib.g_date_time_to_unix msg.date)).tm_gmtoff < 0
          then "-" else "+") ++
        printf_04ld (lib.localtime (lib.g_date_time_to_unix msg.date)).tm_gmtoff ++
        ")\n").data) ∧
    ((strftime lib 63 (lib.localtime (lib.g_date_time_to_unix msg.date))).1 = 0 →
      print_date lib msg w = w) ∧
    (0 < (strftime lib 63 (lib.localtime (lib.g_date_time_to_unix msg.date))).1 →
      (lib.localtime (lib.g_date_time_to_unix msg.date)).tm_gmtoff < 0 →
      (print_date lib msg w).stdout = w.stdout ++ ("Date   : " ++
        (strftime lib 63 (lib.localtime (lib.g_date_time_to_unix msg.date))).2 ++ " (--" ++
        pad0 3 (Nat.repr (lib.localtime (lib.g_date_time_to_unix msg.date)).tm_gmtoff.natAbs) ++
        ")\n").data) ∧
    (∀ n : Int, n < 0 → printf_04ld n = "-" ++ pad0 3 (Nat.repr n.natAbs)) ∧
    (∀ n : Int, 0 ≤ n → printf_04ld n = pad0 4 (Nat.repr n.toNat)) ∧
    (print_date (lib_tz (-18000)) msg_empty world0).stdout =
      "Date   : Thu Jan  1 00:00:00 1970 (--18000)\n".data ∧
    (print_date (lib_tz 3600) msg_empty world0).stdout =
      "Date   : Thu Jan  1 00:00:00 1970 (+3600)\n".data ∧
    (print_date (lib_tz 5) msg_empty world0).stdout =
      "Date   : Thu Jan  1 00:00:00 1970 (+0005)\n".data ∧
    (print_date (lib_tz (-5)) msg_empty world0).stdout =
      "Date   : Thu Jan  1 00:00:00 1970 (--005)\n".data ∧
    (print_date (lib_tz 45) msg_empty world0).stdout =
      "Date   : Thu Jan  1 00:00:00 1970 (+0045)\n".data ∧
    (print_date (lib_tz (-450)) msg_empty world0).stdout =
      "Date   : Thu Jan  1 00:00:00 1970 (--450)\n".data ∧
    (print_date (lib_tz 0) msg_empty world0).stdout =
      "Date   : Thu Jan  1 00:00:00 1970 (+0000)\n".data ∧
    (∀ n : Int, 4 ≤ (printf_04ld n).length) := by
  refine ⟨?_, ?_, ?_, ?_, ?_, ?_, ?_, ?_, ?_, ?_, ?_, ?_, ?_⟩
  · intro h
    rw [print_date_eq, if_pos h]
    rfl
  · intro h
    rw [print_date_eq, if_neg (by omega)]
  · intro h hneg
    rw [print_date_eq, if_pos h]
    simp only [g_print_stdout, hneg, if_true, printf_04ld, String.data_append,
      List.append_assoc]
    rfl
  · intro n hn
    simp [printf_04ld, hn]
  · intro n hn
    simp [printf_04ld, not_lt.mpr hn]
  · decide
  · decide
  · decide
  · decide
  · decide
  · decide
  · decide
  · exact printf_04ld_length

theorem print_date_zone_witness :
    (print_date (lib_tz (-18000)) msg_empty world0).stdout = [] ++ ("Date   : " ++
      "Thu Jan  1 00:00:00 1970" ++ " (--" ++ pad0 3 (Nat.repr 18000) ++ ")\n").data :=
  (print_date_zone (lib_tz (-18000)) msg_empty world0).2.2.1 (by decide) (by decide)

theorem ne_append_of_ne_nil (a b : List Char) (hb : b ≠ []) : a ≠ a ++ b := by
  intro h
  have hl := congrArg List.length h
  rw [List.length_append] at hl
  have : b.length = 0 := by omega
  exact hb (List.length_eq_zero.mp this)

/-- C3, where the code departs from it: `print_date` has no `<none>` case.
Whatever the libraries return, what it writes is never the line
`Date   : <none>`; for the message with none of the fields and the stand-in
library (`g_date_time_to_unix (NULL)` is 0) the program prints `<none>` for
the seven other fields and a date line for the epoch. -/
theorem absent_date_not_none :
    (∀ (lib : Lib) (msg : GMimeMessage) (w : World),
      (print_date lib msg w).stdout ≠ w.stdout ++ "Date   : <none>\n".data) ∧
    msg_empty.date = none ∧
    (test_message lib0 none msg_empty world0).2.stdout =
      ("From   : <none>\nTo     : <none>\nCc     : <none>\nBcc    : <none>\n" ++
       "Subject: <none>\nDate   : Thu Jan  1 00:00:00 1970 (+0000)\n" ++
       "Msg-id : <none>\nRefs   : <none>\n").data := by
  refine ⟨?_, rfl, by decide⟩
  intro lib msg w
  rw [print_date_eq]
  split
  · intro h
    simp only [g_print_stdout, String.data_append] at h
    have h2 := List.append_cancel_left h
    have e2 : ['D', 'a', 't', 'e', ' ', ' ', ' ', ':', ' ', '<', 'n', 'o', 'n', 'e', '>', '\n'] =
        ['D', 'a', 't', 'e', ' ', ' ', ' ', ':', ' ', '<', 'n', 'o', 'n', 'e'] ++ ['>', '\n'] := rfl
    rw [e2] at h2
    have h3 := List.append_inj_right' h2 rfl
    exact absurd h3 (by decide)
  · exact ne_append_of_ne_nil _ _ (by decide)

/-- The seven fields other than the date print `<none>` when absent: an address
list whose text is `NULL` or empty, and a `NULL` subject, message-id or
References header. -/
theorem absent_fields_print_none (lib : Lib) (rv0 : Option String) (msg : GMimeMessage) :
    (∀ rtype, (lib.internet_address_list_to_string (msg.addresses rtype) = none ∨
        lib.internet_address_list_to_string (msg.addresses rtype) = some "") →
      or_none (get_recip lib msg rtype) = "<none>") ∧
    (msg.subject = none → or_none msg.subject = "<none>") ∧
    (msg.message_id = none → or_none msg.message_id = "<none>") ∧
    (msg.header_References = none → or_none (get_refs_str lib rv0 msg) = "<none>") := by
  refine ⟨?_, ?_, ?_, ?_⟩
  · intro rtype h
    rcases h with h | h <;> simp [get_recip, h, or_none]
  · intro h; simp [h, or_none]
  · intro h; simp [h, or_none]
  · intro h; simp [get_refs_str, h, or_none]

/-! ## The output of `test_message` -/

theorem print_body_loop_frame (s : List ReadResult) (w : World) :
    (print_body_loop s w).stdout =
      w.stdout ++ (print_body_loop s ⟨[], [], [], [], w.write_budget⟩).stdout := by
  induction s generalizing w with
  | nil =>
    rcases hb : w.write_budget with _ | k
    · simp [print_body_loop, write, hb]
    · cases k <;> simp [print_body_loop, write, hb]
  | cons r rest ih =>
    cases r with
    | error => simp [print_body_loop]
    | data c =>
      rcases hb : w.write_budget with _ | k
      · simp only [print_body_loop, write, call_write_budget, hb]
        split
        · simp
        · rw [ih]
          conv_rhs => rw [ih]
          simp
      · cases k with
        | zero => simp [print_body_loop, write, hb]
        | succ k =>
          simp only [print_body_loop, write, call_write_budget, hb]
          split
          · simp
          · rw [ih]
            conv_rhs => rw [ih]
            simp

theorem print_body_frame (msg : GMimeMessage) (w : World) :
    (print_body msg w).stdout = w.stdout ++ body_bytes msg w.write_budget := by
  unfold body_bytes print_body
  rcases msg.body with _ | b
  · simp
  · cases b with
    | other => simp
    | part wrapper =>
      rcases wrapper with _ | wr
      · simp
      · rcases hs : wr.stream with _ | st
        · simp [hs]
        · simp only [hs]
          exact print_body_loop_frame st.reads w
    | multipart children =>
      cases children with
      | nil => simp
      | cons c cs =>
        cases c with
        | other => simp
        | multipart _ => simp
        | part wrapper =>
          rcases wrapper with _ | wr
          · simp
          · rcases hs : wr.stream with _ | st
            · simp [hs]
            · simp only [List.get?_cons_zero, hs]
              exact print_body_loop_frame st.reads w

theorem string_data_ne_nil (s : String) (h : s ≠ "") : s.data ≠ [] := by
  intro hd
  apply h
  cases s
  simp only at hd
  rw [hd]

theorem get_refs_str_null (lib : Lib) (msg : GMimeMessage) (str : String)
    (hstr : msg.header_References = some str) :
    get_refs_str lib none msg = (lib.g_mime_references_parse str).foldl refs_push none := by
  simp only [get_refs_str, hstr]
  exact refs_loop_eq _ none

/-- C1 as the code has it: for every message `test_message` returns `TRUE`, and
what it adds to standard output is, in this order: the lines `From   : `,
`To     : `, `Cc     : `, `Bcc    : `, `Subject: `, then the date line, then the
lines `Msg-id : ` and `Refs   : `, and after all of these the bytes `print_body`
writes.  A recipient line carries the text `internet_address_list_to_string`
returned when it is not empty; the subject and message-id lines carry the string
the accessor returned.  The date line is there only when `strftime` returns a
length above 0, and then it carries the `%c` text of the local time of the date
the accessor returned, followed by the zone in parentheses; when `strftime`
returns 0 no date line is written and the other lines keep their order.  The
references line carries `<none>` when the header is absent and, when `rv` holds
`NULL` on entry to `get_refs_str`, the ids the library returned joined by
commas; nothing is stated about its value for another content of `rv`. -/
theorem test_message_output (lib : Lib) (rv0 : Option String) (msg : GMimeMessage)
    (w : World) :
    (test_message lib rv0 msg w).1 = true ∧
    (∃ refs : String,
      (test_message lib rv0 msg w).2.stdout =
        w.stdout ++
        ("From   : " ++ or_none (get_recip lib msg GMimeAddressType.FROM) ++ "\n").data ++
        ("To     : " ++ or_none (get_recip lib msg GMimeAddressType.TO) ++ "\n").data ++
        ("Cc     : " ++ or_none (get_recip lib msg GMimeAddressType.CC) ++ "\n").data ++
        ("Bcc    : " ++ or_none (get_recip lib msg GMimeAddressType.BCC) ++ "\n").data ++
        ("Subject: " ++ or_none msg.subject ++ "\n").data ++
        date_text lib msg ++
        ("Msg-id : " ++ or_none msg.message_id ++ "\n").data ++
        ("Refs   : " ++ refs ++ "\n").data ++
        body_bytes msg w.write_budget ∧
      (msg.header_References = none → refs = "<none>") ∧
      (rv0 = none → ∀ (str id : String) (ids : List String),
        msg.header_References = some str → lib.g_mime_references_parse str = id :: ids →
        refs = comma_join (id :: ids)) ∧
      (rv0 = none → ∀ str : String,
        msg.header_References = some str → lib.g_mime_references_parse str = [] →
        refs = "<none>")) ∧
    (∀ (rtype : GMimeAddressType) (s : String),
      lib.internet_address_list_to_string (msg.addresses rtype) = some s → s ≠ "" →
      or_none (get_recip lib msg rtype) = s) ∧
    (∀ s : String, msg.subject = some s → or_none msg.subject = s) ∧
    (∀ s : String, msg.message_id = some s → or_none msg.message_id = s) ∧
    (0 < (strftime lib 63 (lib.localtime (lib.g_date_time_to_unix msg.date))).1 →
      date_text lib msg = ("Date   : " ++
        (strftime lib 63 (lib.localtime (lib.g_date_time_to_unix msg.date))).2 ++ " (" ++
        (if (lib.localtime (lib.g_date_time_to_unix msg.date)).tm_gmtoff < 0
          then "-" else "+") ++
        printf_04ld (lib.localtime (lib.g_date_time_to_unix msg.date)).tm_gmtoff ++
        ")\n").data) ∧
    ((strftime lib 63 (lib.localtime (lib.g_date_time_to_unix msg.date))).1 = 0 →
      date_text lib msg = []) := by
  refine ⟨rfl, ⟨or_none (get_refs_str lib rv0 msg), ?_, ?_, ?_, ?_⟩, ?_, ?_, ?_, ?_, ?_⟩
  · simp only [test_message, print_body_frame, print_date_frame, g_print_stdout,
      g_print_write_budget, List.append_assoc]
  · intro h
    simp [get_refs_str, h, or_none]
  · intro hrv str id ids hstr hids
    subst hrv
    rw [get_refs_str_null lib msg str hstr, hids, foldl_push]
    simp [rv_lead, or_none]
  · intro hrv str hstr hids
    subst hrv
    rw [get_refs_str_null lib msg str hstr, hids]
    rfl
  · intro rtype s hs hne
    simp [get_recip, hs, string_data_ne_nil s hne, or_none]
  · intro s hs; simp [hs, or_none]
  · intro s hs; simp [hs, or_none]
  · intro h
    unfold date_text
    rw [print_date_eq, if_pos h]
    simp [g_print, world0]
  · intro h
    unfold date_text
    rw [print_date_eq, if_neg (by omega)]
    rfl

theorem test_message_output_witness :
    or_none (get_recip lib0 msg_full GMimeAddressType.FROM) = "a@x.com" ∧
    or_none msg_full.subject = "Hi" ∧
    or_none msg_full.message_id = "d@x" ∧
    date_text lib0 msg_full = "Date   : Thu Jan  1 00:00:00 1970 (+0000)\n".data ∧
    date_text lib_long msg_full = [] ∧
    (test_message lib0 none msg_full world0).2.stdout =
      ("From   : a@x.com\nTo     : b@x.com\nCc     : <none>\nBcc    : <none>\n" ++
        "Subject: Hi\nDate   : Thu Jan  1 00:00:00 1970 (+0000)\n" ++
        "Msg-id : d@x\nRefs   : a@x,b@x,c@x\nBody text").data := by
  have h := test_message_output lib0 none msg_full world0
  have h2 := test_message_output lib_long none msg_full world0
  refine ⟨h.2.2.1 GMimeAddressType.FROM "a@x.com" rfl (by decide), h.2.2.2.1 "Hi" rfl,
    h.2.2.2.2.1 "d@x" rfl, (h.2.2.2.2.2.1 (by decide)).trans (by decide),
    h2.2.2.2.2.2.2 (by decide), ?_⟩
  obtain ⟨refs, hout, -, hjoin, -⟩ := h.2.1
  have hrefs : refs = comma_join ["a@x", "b@x", "c@x"] :=
    hjoin rfl "<a@x>, <b@x> <c@x>" "a@x" ["b@x", "c@x"] rfl (by decide)
  rw [hout, hrefs, (h.2.2.2.2.2.1 (by decide))]
  rfl

/-- C1 fails on the code at two places.  In a locale whose `%c` text does not
fit the 63 bytes offered to `strftime`, the message `msg_full`, which has a Date
header, is printed with no `Date   : ` line at all.  And when the unassigned
`rv` of `get_refs_str` holds the text `junk`, the references line carries
`junk,a@x,b@x,c@x` where the library returned the ids `a@x`, `b@x`, `c@x`. -/
theorem test_message_not_as_claimed :
    msg_full.date = some ⟨0⟩ ∧
    (strftime lib_long 63
      (lib_long.localtime (lib_long.g_date_time_to_unix msg_full.date))).1 = 0 ∧
    (test_message lib_long none msg_full world0).2.stdout =
      ("From   : a@x.com\nTo     : b@x.com\nCc     : <none>\nBcc    : <none>\n" ++
        "Subject: Hi\n" ++
        "Msg-id : d@x\nRefs   : a@x,b@x,c@x\nBody text").data ∧
    lib0.g_mime_references_parse "<a@x>, <b@x> <c@x>" = ["a@x", "b@x", "c@x"] ∧
    (test_message lib0 (some "junk") msg_full world0).2.stdout =
      ("From   : a@x.com\nTo     : b@x.com\nCc     : <none>\nBcc    : <none>\n" ++
        "Subject: Hi\nDate   : Thu Jan  1 00:00:00 1970 (+0000)\n" ++
        "Msg-id : d@x\nRefs   : junk,a@x,b@x,c@x\nBody text").data := by
  decide

/-- The run of `test_message` on the end-to-end example of the specification. -/
theorem test_message_hi :
    test_message lib0 none msg_hi world0 =
      (true, { world0 with
        stdout := ("From   : a@x.com\nTo     : b@x.com\nCc     : <none>\nBcc    : <none>\n" ++
          "Subject: Hi\nDate   : Thu Jan  1 00:00:00 1970 (+0000)\n" ++
          "Msg-id : <none>\nRefs   : <none>\nBody text").data
        calls := [Call.g_mime_stream_read] }) := by
  decide

/-! ## The exit code -/

theorem test_file_ok (lib : Lib) (rv0 : Option String) (path : String) (w : World) :
    (test_file lib rv0 path w).1 = true ↔
      ∃ (file : FILE) (stream : GMimeStream) (parser : GMimeParser) (msg : GMimeMessage),
        lib.fopen path = some file ∧
        lib.g_mime_stream_file_new file = some stream ∧
        lib.g_mime_parser_new_with_stream stream = some parser ∧
        lib.g_mime_parser_construct_message parser = some msg := by
  rcases hf : lib.fopen path with _ | file
  · simp [test_file, hf]
  · rcases hs : lib.g_mime_stream_file_new file with _ | stream
    · simp [test_file, hf, hs]
    · rcases hp : lib.g_mime_parser_new_with_stream stream with _ | parser
      · simp [test_file, hf, hs, test_stream, hp]
      · rcases hm : lib.g_mime_parser_construct_message parser with _ | msg
        · simp [test_file, hf, hs, test_stream, hp, hm]
        · simp [test_file, hf, hs, test_stream, hp, hm, test_message]

/-- C2: `main` returns 0 exactly when `argc` is 2 and `fopen`,
`g_mime_stream_file_new`, `g_mime_parser_new_with_stream` and
`g_mime_parser_construct_message` all succeed; in every other case it returns 1;
and when `argc` is not 2 it writes the usage line to standard error and does
nothing else: no library call, no file opened, nothing on standard output. -/
theorem main_exit_code (lib : Lib) (rv0 : Option String) (argc : Int) (argv : List String)
    (w : World) :
    ((main lib rv0 argc argv w).1 = 0 ↔
      argc = 2 ∧ ∃ (file : FILE) (stream : GMimeStream) (parser : GMimeParser)
        (msg : GMimeMessage),
        lib.fopen (argv.getD 1 null_text) = some file ∧
        lib.g_mime_stream_file_new file = some stream ∧
        lib.g_mime_parser_new_with_stream stream = some parser ∧
        lib.g_mime_parser_construct_message parser = some msg) ∧
    ((main lib rv0 argc argv w).1 = 0 ∨ (main lib rv0 argc argv w).1 = 1) ∧
    (argc ≠ 2 →
      main lib rv0 argc argv w =
        (1, { w with stderr := w.stderr ++
          ("usage: " ++ argv.getD 0 null_text ++ " <msg-file>\n").data })) := by
  by_cases hargc : argc = 2
  · have hm : (main lib rv0 argc argv w).1 =
        if (test_file lib rv0 (argv.getD 1 null_text) (call Call.g_mime_init
          (call Call.setlocale w))).1 then 0 else 1 := by
      simp only [main, hargc, ne_eq, not_true_eq_false, if_false]
    have hf := test_file_ok lib rv0 (argv.getD 1 null_text)
      (call Call.g_mime_init (call Call.setlocale w))
    refine ⟨?_, ?_, fun h => absurd hargc h⟩
    · rw [hm, ← hf]
      by_cases ht : (test_file lib rv0 (argv.getD 1 null_text) (call Call.g_mime_init
          (call Call.setlocale w))).1 = true
      · simp [ht, hargc]
      · simp [ht, hargc]
    · rw [hm]
      by_cases ht : (test_file lib rv0 (argv.getD 1 null_text) (call Call.g_mime_init
          (call Call.setlocale w))).1 = true
      · simp [ht]
      · simp [ht]
  · refine ⟨?_, ?_, fun _ => ?_⟩
    · simp [main, hargc]
    · simp [main, hargc]
    · simp [main, hargc, g_printerr]

theorem main_exit_code_witness :
    main lib0 none 1 ["gmime-test"] world0 =
      (1, { world0 with stderr := world0.stderr ++
        ("usage: " ++ ["gmime-test"].getD 0 null_text ++ " <msg-file>\n").data }) :=
  (main_exit_code lib0 none 1 ["gmime-test"] world0).2.2 (by decide)

/-- Runs of `main` with the stand-in library: the file that parses, a file that
does not open, and a missing argument. -/
theorem main_runs :
    (main lib0 none 2 ["gmime-test", "msg"] world0).1 = 0 ∧
    (main lib0 none 2 ["gmime-test", "msg"] world0).2.calls =
      [Call.setlocale, Call.g_mime_init, Call.fopen "msg", Call.g_mime_stream_read,
       Call.g_object_unref Object.parser, Call.g_object_unref Object.msg, Call.fclose ⟨3⟩,
       Call.g_mime_shutdown] ∧
    main lib0 none 2 ["gmime-test", "nofile"] world0 =
      (1, { world0 with
        warnings := [Warning.cannot_open_file "nofile"]
        calls := [Call.setlocale, Call.g_mime_init, Call.fopen "nofile",
          Call.g_mime_shutdown] }) ∧
    main lib0 none 1 ["gmime-test"] world0 =
      (1, { world0 with stderr := "usage: gmime-test <msg-file>\n".data }) := by
  decide

end GmimeTest
